import Mathlib

/-!
Verification development for the personal-agent memory pipeline
(`personal_agent.py`): a shallow embedding of the memory store, the
fast-path name extractor, the generative fact/profile extraction with
defensive response parsing, the profile merge, the context renderer and
the per-turn orchestrator, together with theorems settling the
specification claims about them.

Modelling conventions:
* Text is `List Char` (`Str`); Python string operations (`strip`, `split`,
  `lower`, `capitalize`, truthiness) are embedded explicitly.  The
  character classifiers (`isupper`, `isalpha`, `lower`) are modelled for
  the ASCII and Cyrillic alphabets that the source's patterns and data
  use; other Unicode scripts are outside the model.
* Dynamically typed JSON-ish values are `JVal`; arrays and objects are
  encoded as explicit cons chains (`jarrCons`/`jobjCons`) so that all
  recursion is structural and equality is kernel-computable.  Python
  compares dicts order-insensitively; the encoding compares entry lists
  in order — the difference is not exercised by any claim.
* The external generation capability (Ollama chat transport) is an
  environment value: `none` models a `requests` transport error raised by
  the request, `some body` a completed (possibly streamed-and-accumulated)
  response body.  Prompt construction is abstracted away because the
  environment, not the prompt, determines the modelled response.
* Wall-clock timestamps (`datetime.now().isoformat()`) are threaded as an
  explicit `now : Str` parameter; the session identifier likewise.
-/

/-- Text is modelled as a list of Unicode characters. -/
abbrev Str := List Char

/-- Whitespace for Python `str.strip` / `str.split` / regex `\s`
(the common ASCII whitespace characters; exotic Unicode spaces are outside
the model). -/
def isSpacePy (c : Char) : Bool :=
  c = ' ' || c = '\t' || c = '\n' || c = '\r' || c = '\x0b' || c = '\x0c'

/-- Uppercase test `str.isupper` for a single character, for the ASCII and
Cyrillic alphabets used by the source. -/
def isUpperPy (c : Char) : Bool :=
  ('A' ≤ c && c ≤ 'Z') || ('А' ≤ c && c ≤ 'Я') || c = 'Ё'

/-- Alphabetic test `str.isalpha` for a single character, restricted to the
ASCII and Cyrillic alphabets (this is also exactly the character class
`[А-ЯЁа-яёA-Za-z]` of the source's patterns). -/
def isAlphaPy (c : Char) : Bool :=
  ('A' ≤ c && c ≤ 'Z') || ('a' ≤ c && c ≤ 'z') ||
  ('А' ≤ c && c ≤ 'я') || c = 'Ё' || c = 'ё'

/-- Python `str.lower` on one character (ASCII and Cyrillic). -/
def toLowerPy (c : Char) : Char :=
  if 'A' ≤ c && c ≤ 'Z' then Char.ofNat (c.toNat + 32)
  else if 'А' ≤ c && c ≤ 'Я' then Char.ofNat (c.toNat + 32)
  else if c = 'Ё' then 'ё'
  else c

/-- Python `str.upper` on one character (ASCII and Cyrillic). -/
def toUpperPy (c : Char) : Char :=
  if 'a' ≤ c && c ≤ 'z' then Char.ofNat (c.toNat - 32)
  else if 'а' ≤ c && c ≤ 'я' then Char.ofNat (c.toNat - 32)
  else if c = 'ё' then 'Ё'
  else c

/-- Python `str.lower` on a string. -/
def lowerStr (s : Str) : Str := s.map toLowerPy

/-- Python `str.strip`: drop whitespace from both ends. -/
def pyStrip (s : Str) : Str :=
  ((s.dropWhile isSpacePy).reverse.dropWhile isSpacePy).reverse

/-- Python `str.split()` with no separator: split on whitespace runs,
producing no empty tokens.  Implemented as a single right fold so that the
definition is structurally recursive (and hence kernel-computable). -/
def pySplit (s : Str) : List Str :=
  (s.foldr
    (fun c acc =>
      if isSpacePy c then [] :: acc
      else
        match acc with
        | [] => [[c]]
        | w :: ws => (c :: w) :: ws)
    []).filter (fun w => w ≠ [])

/-- Python `str.capitalize`: first character to upper case, the rest to
lower case. -/
def pyCapitalize : Str → Str
  | [] => []
  | c :: cs => toUpperPy c :: lowerStr cs

/-- Python substring test `needle in hay`. -/
def containsSub (needle : Str) : Str → Bool
  | [] => decide (needle = [])
  | c :: t => decide ((c :: t).take needle.length = needle) || containsSub needle t

/-- Python `int(s)` on a string: optional surrounding whitespace, optional
sign, a non-empty run of ASCII digits.  (Python additionally accepts
underscore digit separators and non-ASCII digits; those are outside the
model.)  Returns `none` where Python raises `ValueError`. -/
def pyInt (s : Str) : Option Int :=
  let t := pyStrip s
  let core : Str → Option Nat := fun ds =>
    if ds ≠ [] && ds.all (fun c => c.isDigit) then
      some (ds.foldl (fun n c => n * 10 + (c.toNat - '0'.toNat)) 0)
    else none
  match t with
  | '-' :: ds => (core ds).map (fun n => -(n : Int))
  | '+' :: ds => (core ds).map (fun n => (n : Int))
  | ds => (core ds).map (fun n => (n : Int))

/-- Fuel-indexed digit printer (structural on the fuel, which always
suffices since a number has at most `n + 1` digits). -/
def natDigitsGo : Nat → Nat → Str
  | 0, _ => []
  | f + 1, n =>
    if n < 10 then [Char.ofNat ('0'.toNat + n)]
    else natDigitsGo f (n / 10) ++ [Char.ofNat ('0'.toNat + n % 10)]

/-- Decimal representation of a natural number (kernel-computable
replacement for `toString`). -/
def natDigitsStr (n : Nat) : Str := natDigitsGo (n + 1) n

/-- Decimal representation of an integer, as Python `str(int)` prints it. -/
def intStr (n : Int) : Str :=
  if n < 0 then '-' :: natDigitsStr n.natAbs else natDigitsStr n.natAbs

/-- Dynamically typed JSON-ish values, as produced by `json.loads` and
stored in the profile dictionary.  Arrays and objects are encoded as
explicit cons chains (`jarrNil`/`jarrCons`, `jobjNil`/`jobjCons`) so that
recursion over values is structural; `jarrOfList`/`JVal.toList` convert to
ordinary lists. -/
inductive JVal where
  | jnull
  | jbool (b : Bool)
  | jint (n : Int)
  | jstr (s : Str)
  | jarrNil
  | jarrCons (hd tl : JVal)
  | jobjNil
  | jobjCons (key : String) (val tl : JVal)
  deriving DecidableEq, Repr

/-- Build an encoded JSON array from a list of values. -/
def jarrOfList : List JVal → JVal
  | [] => .jarrNil
  | v :: vs => .jarrCons v (jarrOfList vs)

/-- Elements of an encoded JSON array (empty for non-arrays). -/
def JVal.toList : JVal → List JVal
  | .jarrCons hd tl => hd :: tl.toList
  | _ => []

/-- Build an encoded JSON object from an entry list. -/
def jobjOfPairs : List (String × JVal) → JVal
  | [] => .jobjNil
  | (k, v) :: t => .jobjCons k v (jobjOfPairs t)

/-- Entries of an encoded JSON object, in insertion order (Python
`dict.items()`); empty for non-objects. -/
def JVal.toPairs : JVal → List (String × JVal)
  | .jobjCons k v tl => (k, v) :: tl.toPairs
  | _ => []

/-- Python truthiness of a JSON-ish value (`if value:`): `None`, `False`,
`0`, and empty strings/containers are falsy. -/
def jtruthy : JVal → Bool
  | .jnull => false
  | .jbool b => b
  | .jint n => decide (n ≠ 0)
  | .jstr s => decide (s ≠ [])
  | .jarrNil => false
  | .jarrCons _ _ => true
  | .jobjNil => false
  | .jobjCons _ _ _ => true

/-- Rendering of a value inside an f-string (`str(value)`), for the scalar
values the renderer actually prints; containers are rendered as a fixed
placeholder (Python would print their full repr — no claim depends on the
text of a container rendering). -/
def jvalStr : JVal → Str
  | .jnull => "None".data
  | .jbool true => "True".data
  | .jbool false => "False".data
  | .jint n => intStr n
  | .jstr s => s
  | .jarrNil | .jarrCons _ _ => "<list>".data
  | .jobjNil | .jobjCons _ _ _ => "<dict>".data

/-- JSON inter-token whitespace accepted by `json.loads`. -/
def isJsonWs (c : Char) : Bool := c = ' ' || c = '\t' || c = '\n' || c = '\r'

/-- Skip JSON whitespace. -/
def skipWsJ (s : Str) : Str := s.dropWhile isJsonWs

/-- Opening brace character (written via its code point throughout). -/
def braceOpen : Char := Char.ofNat 123

/-- Closing brace character. -/
def braceClose : Char := Char.ofNat 125

/-- Value of one hexadecimal digit, by code point (digits, then the two
letter ranges). -/
def hexDigitVal (ch : Char) : Option Nat :=
  let n := ch.toNat
  if 48 ≤ n && n ≤ 57 then some (n - 48)
  else if 97 ≤ n && n ≤ 102 then some (n - 87)
  else if 65 ≤ n && n ≤ 70 then some (n - 55)
  else none

/-- Parse the body of a JSON string literal (after the opening quote),
returning the decoded characters and the remaining input.  Handles the
standard escapes; raw control characters are rejected as `json.loads`
does. -/
def parseJStrBody : Str → Option (Str × Str)
  | [] => none
  | '"' :: rest => some ([], rest)
  | '\\' :: 'u' :: h1 :: h2 :: h3 :: h4 :: tl =>
    (match [h1, h2, h3, h4].mapM hexDigitVal with
     | some ds =>
       (parseJStrBody tl).map
         (fun p => (Char.ofNat (ds.foldl (fun acc d => acc * 16 + d) 0) :: p.1, p.2))
     | none => none)
  | '\\' :: e :: rest =>
    (match
      (if e = '"' then some '"'
       else if e = '\\' then some '\\'
       else if e = '/' then some '/'
       else if e = 'n' then some '\n'
       else if e = 't' then some '\t'
       else if e = 'r' then some '\r'
       else if e = 'b' then some '\x08'
       else if e = 'f' then some '\x0c'
       else none : Option Char) with
     | some ch => (parseJStrBody rest).map (fun p => (ch :: p.1, p.2))
     | none => none)
  | c :: rest =>
    if c.toNat < 32 then none
    else (parseJStrBody rest).map (fun p => (c :: p.1, p.2))

/-- Parsing modes of the recursive-descent JSON reader: a single value, the
tail of an array (after `[` and at least one element to come), or the tail
of an object. -/
inductive JMode where
  | val
  | arrTail
  | objTail

/-- Fuel-indexed recursive-descent reader for the JSON fragment `json.loads`
accepts, minus floating-point numbers (a documented model restriction: no
claim concerns float payloads).  Structural on the fuel so that it is
kernel-computable. -/
def jparseGo : Nat → JMode → Str → Option (JVal × Str)
  | 0, _, _ => none
  | f + 1, .val, s =>
    match skipWsJ s with
    | [] => none
    | c :: rest =>
      if c = 'n' then
        if rest.take 3 = "ull".data then some (.jnull, rest.drop 3) else none
      else if c = 't' then
        if rest.take 3 = "rue".data then some (.jbool true, rest.drop 3) else none
      else if c = 'f' then
        if rest.take 4 = "alse".data then some (.jbool false, rest.drop 4) else none
      else if c = '"' then
        (parseJStrBody rest).map (fun p => (.jstr p.1, p.2))
      else if c = '[' then
        match skipWsJ rest with
        | ']' :: r2 => some (.jarrNil, r2)
        | _ => jparseGo f .arrTail rest
      else if c = braceOpen then
        match skipWsJ rest with
        | d :: r2 => if d = braceClose then some (.jobjNil, r2) else jparseGo f .objTail rest
        | [] => none
      else if c.isDigit || c = '-' then
        let t := if c = '-' then rest else c :: rest
        let ds := t.takeWhile (fun d => d.isDigit)
        if ds = [] then none
        else
          let t2 := t.drop ds.length
          match t2 with
          | '.' :: _ => none
          | 'e' :: _ => none
          | 'E' :: _ => none
          | _ =>
            let n : Int := ds.foldl (fun n d => n * 10 + (d.toNat - '0'.toNat)) (0 : Nat)
            some (.jint (if c = '-' then -n else n), t2)
      else none
  | f + 1, .arrTail, s =>
    match jparseGo f .val s with
    | none => none
    | some (v, r) =>
      match skipWsJ r with
      | ',' :: r2 => (jparseGo f .arrTail r2).map (fun p => (.jarrCons v p.1, p.2))
      | ']' :: r2 => some (.jarrCons v .jarrNil, r2)
      | _ => none
  | f + 1, .objTail, s =>
    match skipWsJ s with
    | '"' :: r =>
      match parseJStrBody r with
      | none => none
      | some (k, r1) =>
        match skipWsJ r1 with
        | ':' :: r2 =>
          match jparseGo f .val r2 with
          | none => none
          | some (v, r3) =>
            match skipWsJ r3 with
            | ',' :: r4 => (jparseGo f .objTail r4).map (fun p => (.jobjCons ⟨k⟩ v p.1, p.2))
            | d :: r4 => if d = braceClose then some (.jobjCons ⟨k⟩ v .jobjNil, r4) else none
            | [] => none
        | _ => none
    | _ => none

/-- Model of `json.loads`: parse one value and require only whitespace to
remain.  `none` models a raised `JSONDecodeError`. -/
def jsonLoads (s : Str) : Option JVal :=
  match jparseGo (2 * s.length + 2) .val s with
  | some (v, rest) => if skipWsJ rest = [] then some v else none
  | none => none

/-- Join a list of strings with a separator (Python `sep.join`). -/
def intercStr (sep : Str) : List Str → Str
  | [] => []
  | [x] => x
  | x :: xs => x ++ sep ++ intercStr sep xs

/-- Python `list[-n:]`: the last `n` elements (all of them if fewer). -/
def lastN (n : Nat) (l : List α) : List α := l.drop (l.length - n)

/-- The user-profile dictionary: exactly the eight keys constructed by
`MemorySystem._empty_memory`, each holding a dynamically typed value (the
source stores this as a plain `dict`). -/
structure Profile where
  name : JVal
  nickname : JVal
  age : JVal
  location : JVal
  occupation : JVal
  interests : JVal
  goals : JVal
  preferences : JVal
  deriving DecidableEq, Repr

/-- Enumeration of the profile's keys. -/
inductive PField where
  | name | nickname | age | location | occupation | interests | goals | preferences
  deriving DecidableEq, Repr

/-- Key lookup in the profile dictionary: `some` exactly for the eight keys
present in the schema (models Python `field in profile_dict`). -/
def fieldOf : String → Option PField
  | "name" => some .name
  | "nickname" => some .nickname
  | "age" => some .age
  | "location" => some .location
  | "occupation" => some .occupation
  | "interests" => some .interests
  | "goals" => some .goals
  | "preferences" => some .preferences
  | _ => none

/-- Read a profile field. -/
def Profile.getF (p : Profile) : PField → JVal
  | .name => p.name
  | .nickname => p.nickname
  | .age => p.age
  | .location => p.location
  | .occupation => p.occupation
  | .interests => p.interests
  | .goals => p.goals
  | .preferences => p.preferences

/-- Write a profile field. -/
def Profile.setF (p : Profile) : PField → JVal → Profile
  | .name, v => { p with name := v }
  | .nickname, v => { p with nickname := v }
  | .age, v => { p with age := v }
  | .location, v => { p with location := v }
  | .occupation, v => { p with occupation := v }
  | .interests, v => { p with interests := v }
  | .goals, v => { p with goals := v }
  | .preferences, v => { p with preferences := v }

/-- String-keyed dictionary read `profile[field]` (`none` models a key that
is not in the dictionary). -/
def Profile.get (p : Profile) (field : String) : Option JVal :=
  (fieldOf field).map p.getF

/-- The empty profile dictionary of `MemorySystem._empty_memory`. -/
def emptyProfile : Profile :=
  { name := .jnull, nickname := .jnull, age := .jnull, location := .jnull,
    occupation := .jnull, interests := .jarrNil, goals := .jarrNil,
    preferences := .jobjNil }

/-- One record of the fact log (`MemorySystem.add_fact`). -/
structure FactEntry where
  fact : Str
  category : Str
  added_at : Str
  session : Str
  deriving DecidableEq, Repr

/-- One relationship record, keyed externally by the person's name. -/
structure RelEntry where
  relation : Str
  details : Str
  added_at : Str
  deriving DecidableEq, Repr

/-- One important-date record, keyed externally by its label. -/
structure DateEntry where
  date : Str
  description : Str
  added_at : Str
  deriving DecidableEq, Repr

/-- The persisted memory store: the top-level keys of
`MemorySystem._empty_memory`.  Keyed maps are association lists in
insertion order (Python `dict` iteration order). -/
structure Memory where
  user_profile : Profile
  facts : List FactEntry
  conversations_summary : List JVal
  important_dates : List (Str × DateEntry)
  relationships : List (Str × RelEntry)
  habits : List Str
  created_at : Str
  updated_at : Option Str
  deriving DecidableEq, Repr

/-- `MemorySystem._empty_memory`, with creation time `created`. -/
def emptyMemory (created : Str) : Memory :=
  { user_profile := emptyProfile, facts := [], conversations_summary := [],
    important_dates := [], relationships := [], habits := [],
    created_at := created, updated_at := none }

/-- `MemorySystem._save_memory`: stamp `updated_at` with the current time
and persist (the file write itself has no further observable effect on the
modelled state, since load/save round-trips the structure). -/
def saveMemory (m : Memory) (now : Str) : Memory := { m with updated_at := some now }

/-- `MemorySystem.add_fact`: append an entry to the fact log and persist. -/
def addFact (m : Memory) (fact : Str) (category : Str) (now sess : Str) : Memory :=
  saveMemory
    { m with facts := m.facts ++ [{ fact := fact, category := category,
                                    added_at := now, session := sess }] }
    now

/-- `MemorySystem.update_profile`: set a profile field if the key is known
(persisting), otherwise report failure with no state change. -/
def updateProfile (m : Memory) (field : String) (value : JVal) (now : Str) :
    Memory × Bool :=
  match fieldOf field with
  | some f => (saveMemory { m with user_profile := m.user_profile.setF f value } now, true)
  | none => (m, false)

/-- A parsed snapshot file for `import_memory`: each top-level key may be
present or absent. -/
structure MemoryData where
  user_profile : Option Profile
  facts : Option (List FactEntry)
  conversations_summary : Option (List JVal)
  important_dates : Option (List (Str × DateEntry))
  relationships : Option (List (Str × RelEntry))
  habits : Option (List Str)
  created_at : Option Str
  updated_at : Option (Option Str)
  deriving DecidableEq, Repr

/-- Python `self.memory.update(data)`: shallow merge — every top-level key
present in `data` overwrites the store's value, absent keys are left
untouched. -/
def Memory.updateWith (m : Memory) (d : MemoryData) : Memory :=
  { user_profile := d.user_profile.getD m.user_profile,
    facts := d.facts.getD m.facts,
    conversations_summary := d.conversations_summary.getD m.conversations_summary,
    important_dates := d.important_dates.getD m.important_dates,
    relationships := d.relationships.getD m.relationships,
    habits := d.habits.getD m.habits,
    created_at := d.created_at.getD m.created_at,
    updated_at := d.updated_at.getD m.updated_at }

/-- `MemorySystem.export_memory`: write the full store verbatim (every
top-level key present in the file). -/
def exportMemory (m : Memory) : MemoryData :=
  { user_profile := some m.user_profile, facts := some m.facts,
    conversations_summary := some m.conversations_summary,
    important_dates := some m.important_dates,
    relationships := some m.relationships, habits := some m.habits,
    created_at := some m.created_at, updated_at := some m.updated_at }

/-- `MemorySystem.import_memory`: shallow-merge the file's top-level keys
into the store, then persist via `_save_memory` (which stamps
`updated_at` with the import time). -/
def importMemory (m : Memory) (d : MemoryData) (now : Str) : Memory :=
  saveMemory (m.updateWith d) now

/-- Render an interests/goals list for `', '.join(...)`; elements that are
not strings are rendered as a placeholder (Python would raise `TypeError`
there — only reachable on a store whose list fields were corrupted by an
import, and no claim inspects that text). -/
def joinStrElems (v : JVal) : Str :=
  intercStr ", ".data
    (v.toList.map (fun e => match e with | .jstr s => s | _ => "<non-str>".data))

/-- Render the preferences dictionary entries `k: v`. -/
def joinPrefPairs (v : JVal) : Str :=
  intercStr ", ".data (v.toPairs.map (fun kv => kv.1.data ++ ": ".data ++ jvalStr kv.2))

/-- The fixed sentinel returned by the renderer for an empty store. -/
def emptyMemorySentinel : Str :=
  "ПАМЯТЬ ПУСТАЯ: Я ещё ничего не знаю о пользователе. Это первый разговор.".data

/-- The `context_parts` list accumulated by
`MemorySystem.get_memory_context`: one labelled section per populated data
group, in source order. -/
def contextParts (m : Memory) : List Str :=
  let p := m.user_profile
  (if jtruthy p.name then ["Имя пользователя: ".data ++ jvalStr p.name] else []) ++
  (if jtruthy p.nickname then ["Прозвище: ".data ++ jvalStr p.nickname] else []) ++
  (if jtruthy p.age then ["Возраст: ".data ++ jvalStr p.age] else []) ++
  (if jtruthy p.location then ["Местоположение: ".data ++ jvalStr p.location] else []) ++
  (if jtruthy p.occupation then ["Род занятий: ".data ++ jvalStr p.occupation] else []) ++
  (if jtruthy p.interests then ["Интересы: ".data ++ joinStrElems p.interests] else []) ++
  (if jtruthy p.goals then ["Цели: ".data ++ joinStrElems p.goals] else []) ++
  (if jtruthy p.preferences then ["Предпочтения: ".data ++ joinPrefPairs p.preferences] else []) ++
  (if m.relationships ≠ [] then
    ["Близкие люди: ".data ++
      intercStr ", ".data
        (m.relationships.map (fun kv => kv.1 ++ " (".data ++ kv.2.relation ++ ")".data))]
   else []) ++
  (if m.important_dates ≠ [] then
    ["Важные даты: ".data ++
      intercStr ", ".data
        (m.important_dates.map (fun kv => kv.1 ++ ": ".data ++ kv.2.date))]
   else []) ++
  (if m.habits ≠ [] then ["Привычки: ".data ++ intercStr ", ".data m.habits] else []) ++
  (if m.facts ≠ [] then
    ["Что я знаю о пользователе:\n".data ++
      intercStr "\n".data ((lastN 10 m.facts).map (fun f => "- ".data ++ f.fact))]
   else [])

/-- The `has_any_info` flag of `MemorySystem.get_memory_context`: set by
exactly the same truthiness tests that contribute the sections above. -/
def hasAnyInfo (m : Memory) : Bool :=
  jtruthy m.user_profile.name || jtruthy m.user_profile.nickname ||
  jtruthy m.user_profile.age || jtruthy m.user_profile.location ||
  jtruthy m.user_profile.occupation || jtruthy m.user_profile.interests ||
  jtruthy m.user_profile.goals || jtruthy m.user_profile.preferences ||
  decide (m.relationships ≠ []) || decide (m.important_dates ≠ []) ||
  decide (m.habits ≠ []) || decide (m.facts ≠ [])

/-- `MemorySystem.get_memory_context`: the grounding context — the sentinel
for an empty store, otherwise the populated sections joined by blank
lines. -/
def getMemoryContext (m : Memory) : Str :=
  if hasAnyInfo m then intercStr "\n\n".data (contextParts m) else emptyMemorySentinel

/-- Decidable equality for `Except` (not provided by core), needed to
evaluate concrete runs of the fallible extractor. -/
instance {e a : Type} [DecidableEq e] [DecidableEq a] : DecidableEq (Except e a) := fun x y =>
  match x, y with
  | .error u, .error v =>
    if h : u = v then .isTrue (by rw [h]) else .isFalse (by intro c; injection c; exact h (by assumption))
  | .ok u, .ok v =>
    if h : u = v then .isTrue (by rw [h]) else .isFalse (by intro c; injection c; exact h (by assumption))
  | .error _, .ok _ => .isFalse (by intro c; exact Except.noConfusion c)
  | .ok _, .error _ => .isFalse (by intro c; exact Except.noConfusion c)

/-- Shape of the source's name/nickname regexes: literal words separated by
`\s+`, then `\s+` and a capture group `([А-ЯЁа-яёA-Za-z]+)`; pattern 4 of
the name list additionally requires the suffix `(?:\s*,|\s+но)` after the
capture. -/
structure PhrasePat where
  lits : List Str
  commaNoTail : Bool
  deriving Repr

/-- Require `lit` as a literal at the head of the input. -/
def litHere (lit : Str) (s : Str) : Option Str :=
  if s.take lit.length = lit then some (s.drop lit.length) else none

/-- Require at least one whitespace character and consume the whole run
(equivalent to greedy `\s+` followed by a non-whitespace continuation, as
in all of the source's patterns). -/
def ws1 (s : Str) : Option Str :=
  match s with
  | c :: cs => if isSpacePy c then some (cs.dropWhile isSpacePy) else none
  | [] => none

/-- Match the remaining literal words, each preceded by `\s+`. -/
def matchSeq : List Str → Str → Option Str
  | [], s => some s
  | l :: ls, s => (ws1 s).bind (fun s1 => (litHere l s1).bind (matchSeq ls))

/-- Check the pattern-4 tail `(?:\s*,|\s+но)` at the position after the
capture.  Because the capture is a maximal letter run, the character after
it is not a letter, so no regex backtracking into the capture can succeed
— checking at the maximal capture is exact. -/
def commaNoTailOk (s : Str) : Bool :=
  (s.dropWhile isSpacePy).take 1 = [','] ||
  (match s with
   | c :: _ => isSpacePy c && (s.dropWhile isSpacePy).take 2 = "но".data
   | [] => false)

/-- Attempt to match a phrase pattern anchored at the current position,
returning the capture group. -/
def matchHere (pat : PhrasePat) (s : Str) : Option Str :=
  match pat.lits with
  | [] => none
  | l0 :: ls =>
    (litHere l0 s).bind fun s1 =>
    (matchSeq ls s1).bind fun s2 =>
    (ws1 s2).bind fun s3 =>
      let cap := s3.takeWhile isAlphaPy
      if cap = [] then none
      else if pat.commaNoTail then
        if commaNoTailOk (s3.dropWhile isAlphaPy) then some cap else none
      else some cap

/-- `re.search`: try the pattern at every position, leftmost match wins. -/
def reSearch (pat : PhrasePat) : Str → Option Str
  | [] => matchHere pat []
  | s@(_ :: cs) =>
    match matchHere pat s with
    | some cap => some cap
    | none => reSearch pat cs

/-- The name patterns of `_extract_name_directly`, in source order. -/
def namePatterns : List PhrasePat :=
  [⟨["меня".data, "зовут".data], false⟩,
   ⟨["мое".data, "имя".data], false⟩,
   ⟨["я".data, "—".data], false⟩,
   ⟨["я".data], true⟩]

/-- The nickname patterns of `_extract_name_directly`, in source order. -/
def nicknamePatterns : List PhrasePat :=
  [⟨["но".data, "ты".data, "можешь".data, "звать".data, "меня".data], false⟩,
   ⟨["можешь".data, "звать".data, "меня".data], false⟩,
   ⟨["звать".data, "меня".data], false⟩,
   ⟨["зови".data, "меня".data], false⟩,
   ⟨["прозвище".data], false⟩]

/-- The stop-word set of `_extract_name_directly`. -/
def stopWordsName : List Str :=
  ["меня".data, "зовут".data, "мое".data, "я".data, "но".data, "ты".data,
   "можешь".data, "звать".data, "зови".data, "привет".data, "пока".data,
   "да".data, "нет".data, "спасибо".data, "пожалуйста".data, "как".data,
   "что".data, "где".data, "когда".data, "почему".data, "кто".data,
   "это".data, "то".data, "все".data, "всё".data]

/-- Acceptance filter for a matched name: `len(potential_name) > 2 and
potential_name.lower() not in stop_words` (applied to the stripped
capture). -/
def nameAcceptFn (m : Str) : Bool :=
  decide (2 < m.length) && !stopWordsName.contains (lowerStr m)

/-- Acceptance filter for a matched nickname: `len(potential_nickname) > 1
and potential_nickname.lower() not in stop_words` (applied to the stripped
capture). -/
def nickAcceptFn (m : Str) : Bool :=
  decide (1 < m.length) && !stopWordsName.contains (lowerStr m)

/-- The source's pattern loop: take the first pattern whose match passes
the acceptance filter; a match that fails the filter does not stop the
scan of later patterns. -/
def firstAcceptedMatch (pats : List PhrasePat) (accept : Str → Bool) (s : Str) :
    Option Str :=
  match pats with
  | [] => none
  | p :: ps =>
    match reSearch p s with
    | some m => if accept (pyStrip m) then some (pyStrip m) else firstAcceptedMatch ps accept s
    | none => firstAcceptedMatch ps accept s

/-- The pattern-strategy phase of `_extract_name_directly` (everything
after the short-utterance branch): extract a name and a nickname from the
lowered message, update each field when it is falsy or differs, and report
whether anything changed. -/
def patternPhase (messageLower : Str) (m : Memory) (now : Str) : Memory × Bool :=
  let profile := m.user_profile
  let name := (firstAcceptedMatch namePatterns nameAcceptFn messageLower).map pyCapitalize
  let nickname :=
    (firstAcceptedMatch nicknamePatterns nickAcceptFn messageLower).map pyCapitalize
  let step1 : Memory × Bool :=
    match name with
    | some n =>
      if !jtruthy profile.name || profile.name ≠ .jstr n then
        ((updateProfile m "name" (.jstr n) now).1, true)
      else (m, false)
    | none => (m, false)
  match nickname with
  | some n =>
    if !jtruthy profile.nickname || profile.nickname ≠ .jstr n then
      ((updateProfile step1.1 "nickname" (.jstr n) now).1, true)
    else (step1.1, step1.2)
  | none => (step1.1, step1.2)

/-- Guard of the short-utterance heuristic: at most two tokens and a
profile with falsy `name` and `nickname`. -/
def shortGuard (words : List Str) (profile : Profile) : Bool :=
  decide (words.length ≤ 2) && !jtruthy profile.name && !jtruthy profile.nickname

/-- Token conditions of the short-utterance heuristic on the first word:
non-empty, initial upper-case letter, all alphabetic, length at least two,
and not a stop word. -/
def shortTokenOk (w : Str) : Bool :=
  match w with
  | [] => false
  | c :: _ =>
    isUpperPy c && w.all isAlphaPy && decide (2 ≤ w.length) &&
    !stopWordsName.contains (lowerStr w)

/-- `PersonalAgent._extract_name_directly`.  `Except.error ()` models the
`IndexError` the source raises at `words[0]` when the message has no
tokens while the short-utterance guard holds (its in-repo callers never
pass such a message).  On success, returns the updated memory and whether
any name/nickname field changed. -/
def extractNameDirectly (userMessage : Str) (m : Memory) (now : Str) :
    Except Unit (Memory × Bool) :=
  let messageLower := pyStrip (lowerStr userMessage)
  let messageOriginal := pyStrip userMessage
  let words := pySplit messageOriginal
  if shortGuard words m.user_profile then
    match words with
    | [] => .error ()
    | w :: _ =>
      if shortTokenOk w then .ok ((updateProfile m "name" (.jstr w) now).1, true)
      else .ok (patternPhase messageLower m now)
  else .ok (patternPhase messageLower m now)

/-- `chat_with_model`: the transport layer is abstracted as the response
body when the request completes (`some body`, with streamed chunks already
accumulated) or a raised `requests.RequestException` (`none`), in which
case the source prints an error and returns the empty string. -/
def chatWithModel (transport : Option Str) : Str := transport.getD []

/-- Index of the first occurrence of a character (Python `str.find`, with
`-1` modelled as `none`). -/
def firstIdx (c : Char) : Str → Option Nat
  | [] => none
  | d :: t => if d = c then some 0 else (firstIdx c t).map (· + 1)

/-- Index of the last occurrence of a character (Python `str.rfind`, with
`-1` modelled as `none`). -/
def lastIdx (c : Char) (s : Str) : Option Nat :=
  (firstIdx c s.reverse).map (fun i => s.length - 1 - i)

/-- The defensive response parsing of `extract_facts_from_conversation`:
slice from the first `[` to the last `]`, run `json.loads` on the slice,
and keep only the truthy string elements; any failure (no such slice, a
parse error, or a non-array result) yields the empty list instead of an
error. -/
def parseFactsResponse (response : Str) : List Str :=
  match firstIdx '[' response, lastIdx ']' response with
  | some jsonStart, some jend =>
    if jsonStart < jend + 1 then
      match jsonLoads ((response.drop jsonStart).take (jend + 1 - jsonStart)) with
      | some facts =>
        facts.toList.filterMap
          (fun f => match f with
            | .jstr s => if s ≠ [] then some s else none
            | _ => none)
      | none => []
    else []
  | _, _ => []

/-- The stop-word set of the short-circuit inside
`extract_facts_from_conversation` (smaller than the fast-path one). -/
def stopWordsFacts : List Str :=
  ["привет".data, "пока".data, "да".data, "нет".data, "спасибо".data,
   "как".data, "что".data, "где".data, "когда".data]

/-- `extract_facts_from_conversation`.  For a message of at most two
tokens whose first token looks like a name, the single fact is produced
directly with no model call; otherwise the extraction prompt is sent and
the response parsed defensively.  `factTransport` is the transport outcome
of that call; the memory context only feeds the prompt and therefore does
not influence the modelled result. -/
def extractFactsFromConversation (factTransport : Option Str) (userMessage : Str)
    (_memoryContext : Str) : List Str :=
  let words := pySplit (pyStrip userMessage)
  let short : Option (List Str) :=
    if words.length ≤ 2 then
      let firstWord := words.headD []
      if firstWord ≠ [] &&
          (match firstWord with | c :: _ => isUpperPy c | [] => false) &&
          firstWord.all isAlphaPy && decide (2 ≤ firstWord.length) then
        if !stopWordsFacts.contains (lowerStr firstWord) then
          some ["Пользователя зовут ".data ++ firstWord]
        else none
      else none
    else none
  match short with
  | some facts => facts
  | none => parseFactsResponse (chatWithModel factTransport)

/-- Age coercion inside the merge loop of `update_profile_from_facts`:
when the `age` field arrives as a string, attempt an integer parse;
`none` models the `continue` that skips just this field on `ValueError`.
Other fields, and non-string ages, pass through unchanged. -/
def coerceField (field : String) (value : JVal) : Option JVal :=
  if field = "age" then
    match value with
    | .jstr s => (pyInt s).map .jint
    | _ => some value
  else some value

/-- The merge loop of `update_profile_from_facts`: for each parsed entry,
skip null values and unknown keys, coerce a string `age`, and write the
value (persisting via `update_profile`) only when the stored value is
`None` or differs; the flag records whether any write happened. -/
def profileUpdatesLoop (now : Str) : List (String × JVal) → Memory → Bool → Memory × Bool
  | [], m, updated => (m, updated)
  | (field, value) :: rest, m, updated =>
    if value ≠ .jnull && (m.user_profile.get field).isSome then
      match coerceField field value with
      | none => profileUpdatesLoop now rest m updated
      | some v =>
        if m.user_profile.get field = some .jnull || m.user_profile.get field ≠ some v then
          profileUpdatesLoop now rest (updateProfile m field v now).1 true
        else profileUpdatesLoop now rest m updated
    else profileUpdatesLoop now rest m updated

/-- `update_profile_from_facts`: with no facts, return immediately;
otherwise send the profile-extraction prompt, slice the response from the
first to the last brace, parse it defensively, and run the merge loop on
the object's entries.  Any parse failure (or a non-object result) leaves
the profile untouched and reports no update. -/
def updateProfileFromFacts (profileTransport : Option Str) (facts : List Str)
    (m : Memory) (now : Str) : Memory × Bool :=
  if facts = [] then (m, false)
  else
    let response := chatWithModel profileTransport
    match firstIdx braceOpen response, lastIdx braceClose response with
    | some jsonStart, some jend =>
      let jsonEnd := jend + 1
      if jsonStart < jsonEnd then
        match jsonLoads ((response.drop jsonStart).take (jsonEnd - jsonStart)) with
        | some updates => profileUpdatesLoop now updates.toPairs m false
        | none => (m, false)
      else (m, false)
    | _, _ => (m, false)

/-- One message of the in-memory conversation history. -/
structure ChatMsg where
  role : Str
  content : Str
  deriving DecidableEq, Repr

/-- One record of the exchange log (`ConversationLogger.log_exchange`). -/
structure LogEntry where
  timestamp : Str
  user : Str
  assistant : Str
  extracted_facts : List Str
  deriving DecidableEq, Repr

/-- Orchestrator state: the memory system, the in-memory turn history and
the session's exchange log. -/
structure AgentState where
  memory : Memory
  history : List ChatMsg
  log : List LogEntry
  deriving DecidableEq, Repr

/-- Transport outcomes of the up to three generation calls a turn makes:
fact extraction, profile-field extraction, and the main chat response. -/
structure ChatEnv where
  factTransport : Option Str
  profileTransport : Option Str
  mainTransport : Option Str
  deriving DecidableEq, Repr

/-- The fact-mention test of `process_message` step 3: some already
extracted fact mentions `зовут` or `имя` (case-insensitively). -/
def hasNameFact (facts : List Str) : Bool :=
  facts.any (fun f => containsSub "зовут".data (lowerStr f) ||
                      containsSub "имя".data (lowerStr f))

/-- `PersonalAgent.process_message`: one full turn.  Runs the fast-path
name extractor (propagating its possible `IndexError`), extracts facts
(with the current rendered context), synthesizes a name fact for the log
when the fast path fired, a name is present and no extracted fact already
mentions it, stores all facts, updates the profile from them, appends the
utterance to history, obtains the main chat response, logs the exchange
and appends the response to history. -/
def processMessage (env : ChatEnv) (now sess : Str) (st : AgentState)
    (userMessage : Str) : Except Unit (AgentState × Str) := do
  let (m1, nameExtracted) ← extractNameDirectly userMessage st.memory now
  let memoryContext := getMemoryContext m1
  let facts0 := extractFactsFromConversation env.factTransport userMessage memoryContext
  let newFacts :=
    if nameExtracted && jtruthy m1.user_profile.name && !hasNameFact facts0 then
      facts0 ++ ["Пользователя зовут ".data ++ jvalStr m1.user_profile.name]
    else facts0
  let m2 := newFacts.foldl (fun m f => addFact m f "general".data now sess) m1
  let m3 :=
    if newFacts ≠ [] then (updateProfileFromFacts env.profileTransport newFacts m2 now).1
    else m2
  let history1 := st.history ++ [{ role := "user".data, content := userMessage }]
  let response := chatWithModel env.mainTransport
  let log1 := st.log ++
    [{ timestamp := now, user := userMessage, assistant := response,
       extracted_facts := newFacts }]
  let history2 := history1 ++ [{ role := "assistant".data, content := response }]
  return ({ memory := m3, history := history2, log := log1 }, response)

/-- Candidate-field semantics of the profile merge as the specification
words it (§4.4): null values and unknown keys leave the stored value
untouched; a string `age` is integer-coerced (an unparsable one is
dropped); the candidate is written only when the stored value is `None` or
differs.  Used to characterise `profileUpdatesLoop`. -/
def mergeExpected (old : Option JVal) (field : String) (value : JVal) : Option JVal :=
  match old with
  | none => none
  | some o =>
    if value = .jnull then some o
    else
      match coerceField field value with
      | none => some o
      | some v => if o = .jnull ∨ o ≠ v then some v else some o

/-- Fixture: an otherwise empty store whose profile has `name = "Ann"`
(the store of the specification's merge example). -/
def annMemory : Memory :=
  { emptyMemory "C".data with
    user_profile := { emptyProfile with name := .jstr "Ann".data } }

/-- Fixture: an otherwise empty store whose profile has `name = "Петя"`. -/
def petyaMemory : Memory :=
  { emptyMemory "C".data with
    user_profile := { emptyProfile with name := .jstr "Петя".data } }

/-- Fixture: an environment in which every chat request raises a transport
error. -/
def envErr : ChatEnv :=
  { factTransport := none, profileTransport := none, mainTransport := none }

/-- Fixture: a populated store used to exercise the export/import round
trip. -/
def roundTripMemory : Memory :=
  { user_profile := { emptyProfile with name := .jstr "Ann".data, age := .jint 30 },
    facts := [{ fact := "любит джаз".data, category := "general".data,
                added_at := "2024-06-01T00:00:00".data, session := "2024-06-01".data }],
    conversations_summary := [],
    important_dates := [("день рождения".data,
      { date := "1 мая".data, description := [], added_at := "2024-06-01T00:00:00".data })],
    relationships := [("Оля".data,
      { relation := "сестра".data, details := [], added_at := "2024-06-01T00:00:00".data })],
    habits := ["бег по утрам".data],
    created_at := "2024-01-01T00:00:00".data,
    updated_at := some "2024-06-01T00:00:00".data }

/-! Helper lemmas about the profile dictionary and the merge loop. -/

theorem getF_setF (p : Profile) (f g : PField) (v : JVal) :
    (p.setF g v).getF f = if f = g then v else p.getF f := by
  cases f <;> cases g <;> simp [Profile.setF, Profile.getF]

theorem fieldOf_inj {k l : String} {f : PField} (hk : fieldOf k = some f)
    (hl : fieldOf l = some f) : k = l := by
  unfold fieldOf at hk hl
  split at hk <;> split at hl <;> (try cases hk) <;> (try cases hl) <;> simp_all

theorem get_updateProfile (m : Memory) (k l : String) (v : JVal) (now : Str) :
    (updateProfile m k v now).1.user_profile.get l =
      if l = k ∧ (fieldOf k).isSome then some v else m.user_profile.get l := by
  unfold updateProfile Profile.get
  cases hk : fieldOf k with
  | none => simp [hk]
  | some f =>
    cases hl : fieldOf l with
    | none =>
      simp only [hk, hl, Option.map_none, Option.isSome_some]
      have : ¬(l = k ∧ True) := by
        rintro ⟨rfl, -⟩; rw [hk] at hl; cases hl
      simp [this]
    | some g =>
      simp only [hk, hl, saveMemory, Option.map_some, Option.isSome_some, and_true]
      by_cases hlk : l = k
      · subst hlk; rw [hk] at hl; cases hl
        simp [getF_setF]
      · have hfg : g ≠ f := fun h => hlk (fieldOf_inj hl (h ▸ hk))
        simp [getF_setF, hfg, hlk]

theorem user_profile_updateProfile (m : Memory) (k : String) (v : JVal) (now : Str) :
    (updateProfile m k v now).1.user_profile =
      match fieldOf k with
      | some f => m.user_profile.setF f v
      | none => m.user_profile := by
  unfold updateProfile
  cases hk : fieldOf k <;> simp [saveMemory]

theorem loop_get_of_not_mem (now : Str) (updates : List (String × JVal))
    (m : Memory) (b : Bool) (k : String)
    (hk : k ∉ updates.map Prod.fst) :
    (profileUpdatesLoop now updates m b).1.user_profile.get k =
      m.user_profile.get k := by
  induction updates generalizing m b with
  | nil => rfl
  | cons e rest ih =>
    obtain ⟨field, value⟩ := e
    have hkf : k ≠ field := by simp at hk; exact fun h => absurd h hk.1
    have hkr : k ∉ rest.map Prod.fst := by simp at hk ⊢; exact hk.2
    unfold profileUpdatesLoop
    split
    · split
      · exact ih m b hkr
      · split
        · rw [ih _ true hkr, get_updateProfile]
          simp [hkf]
        · exact ih m b hkr
    · exact ih m b hkr

theorem loop_flag_true (now : Str) (updates : List (String × JVal)) (m : Memory) :
    (profileUpdatesLoop now updates m true).2 = true := by
  induction updates generalizing m with
  | nil => rfl
  | cons e rest ih =>
    obtain ⟨field, value⟩ := e
    unfold profileUpdatesLoop
    split
    · split
      · exact ih m
      · split
        · exact ih _
        · exact ih m
    · exact ih m

theorem loop_flag_false (now : Str) (updates : List (String × JVal))
    (m : Memory) (b : Bool)
    (h : (profileUpdatesLoop now updates m b).2 = false) :
    (profileUpdatesLoop now updates m b).1 = m ∧ b = false := by
  induction updates generalizing m b with
  | nil => exact ⟨rfl, h⟩
  | cons e rest ih =>
    obtain ⟨field, value⟩ := e
    unfold profileUpdatesLoop at h ⊢
    by_cases c1 : (decide (value ≠ JVal.jnull) && (m.user_profile.get field).isSome) = true
    · rw [if_pos c1] at h ⊢
      cases c2 : coerceField field value with
      | none => rw [c2] at h; exact ih m b h
      | some v =>
        rw [c2] at h
        have h2 : (if (decide (m.user_profile.get field = some JVal.jnull) ||
            decide (m.user_profile.get field ≠ some v)) = true then
              profileUpdatesLoop now rest (updateProfile m field v now).1 true
            else profileUpdatesLoop now rest m b).2 = false := h
        show (if (decide (m.user_profile.get field = some JVal.jnull) ||
            decide (m.user_profile.get field ≠ some v)) = true then
              profileUpdatesLoop now rest (updateProfile m field v now).1 true
            else profileUpdatesLoop now rest m b).1 = m ∧ b = false
        by_cases c3 : (decide (m.user_profile.get field = some JVal.jnull) ||
            decide (m.user_profile.get field ≠ some v)) = true
        · rw [if_pos c3] at h2; rw [loop_flag_true] at h2; cases h2
        · rw [if_neg c3] at h2 ⊢; exact ih m b h2
    · rw [if_neg c1] at h ⊢; exact ih m b h

theorem mergeExpected_null (old : Option JVal) (field : String) :
    mergeExpected old field .jnull = old := by
  cases old <;> simp [mergeExpected]


theorem coerceField_ne_null {field : String} {value v : JVal}
    (hc : coerceField field value = some v) (hv : value ≠ .jnull) : v ≠ .jnull := by
  unfold coerceField at hc
  split at hc
  · cases value <;> simp_all
    all_goals try (obtain ⟨n, -, rfl⟩ := hc; simp)
  · cases hc; exact hv

theorem isSome_fieldOf_of_get (m : Memory) (field : String)
    (h : (m.user_profile.get field).isSome = true) : (fieldOf field).isSome = true := by
  unfold Profile.get at h
  cases hf : fieldOf field <;> simp [hf] at h ⊢

/-- Step equation: the head entry is skipped when the guard
`value is not None and field in current_profile` fails. -/
theorem loop_step_guard_false (now : Str) (field : String) (value : JVal)
    (rest : List (String × JVal)) (m : Memory) (b : Bool)
    (hcond : (decide (value ≠ JVal.jnull) && (m.user_profile.get field).isSome) = false) :
    profileUpdatesLoop now ((field, value) :: rest) m b =
      profileUpdatesLoop now rest m b := by
  show (if (decide (value ≠ JVal.jnull) && (m.user_profile.get field).isSome) = true then
      match coerceField field value with
      | none => profileUpdatesLoop now rest m b
      | some v =>
        if (decide (m.user_profile.get field = some JVal.jnull) ||
            decide (m.user_profile.get field ≠ some v)) = true then
          profileUpdatesLoop now rest (updateProfile m field v now).1 true
        else profileUpdatesLoop now rest m b
    else profileUpdatesLoop now rest m b) = profileUpdatesLoop now rest m b
  rw [if_neg (by rw [hcond]; exact Bool.false_ne_true)]

/-- Step equation: the head entry is skipped when age coercion fails. -/
theorem loop_step_nocoerce (now : Str) (field : String) (value : JVal)
    (rest : List (String × JVal)) (m : Memory) (b : Bool)
    (hcond : (decide (value ≠ JVal.jnull) && (m.user_profile.get field).isSome) = true)
    (hc : coerceField field value = none) :
    profileUpdatesLoop now ((field, value) :: rest) m b =
      profileUpdatesLoop now rest m b := by
  show (if (decide (value ≠ JVal.jnull) && (m.user_profile.get field).isSome) = true then
      match coerceField field value with
      | none => profileUpdatesLoop now rest m b
      | some v =>
        if (decide (m.user_profile.get field = some JVal.jnull) ||
            decide (m.user_profile.get field ≠ some v)) = true then
          profileUpdatesLoop now rest (updateProfile m field v now).1 true
        else profileUpdatesLoop now rest m b
    else profileUpdatesLoop now rest m b) = profileUpdatesLoop now rest m b
  rw [if_pos hcond, hc]

/-- Step equation: with the guard satisfied and a coerced value, the head
entry reduces to the write-or-skip conditional. -/
theorem loop_step_some (now : Str) (field : String) (value : JVal)
    (rest : List (String × JVal)) (m : Memory) (b : Bool) (v : JVal)
    (hcond : (decide (value ≠ JVal.jnull) && (m.user_profile.get field).isSome) = true)
    (hc : coerceField field value = some v) :
    profileUpdatesLoop now ((field, value) :: rest) m b =
      if (decide (m.user_profile.get field = some JVal.jnull) ||
          decide (m.user_profile.get field ≠ some v)) = true then
        profileUpdatesLoop now rest (updateProfile m field v now).1 true
      else profileUpdatesLoop now rest m b := by
  show (if (decide (value ≠ JVal.jnull) && (m.user_profile.get field).isSome) = true then
      match coerceField field value with
      | none => profileUpdatesLoop now rest m b
      | some w =>
        if (decide (m.user_profile.get field = some JVal.jnull) ||
            decide (m.user_profile.get field ≠ some w)) = true then
          profileUpdatesLoop now rest (updateProfile m field w now).1 true
        else profileUpdatesLoop now rest m b
    else profileUpdatesLoop now rest m b) = _
  rw [if_pos hcond, hc]

theorem loop_get_of_mem (now : Str) :
    ∀ (updates : List (String × JVal)) (m : Memory) (b : Bool) (k : String) (v : JVal),
    (updates.map Prod.fst).Nodup → (k, v) ∈ updates →
    (profileUpdatesLoop now updates m b).1.user_profile.get k =
      mergeExpected (m.user_profile.get k) k v := by
  intro updates
  induction updates with
  | nil => intro m b k v _ hmem; cases hmem
  | cons e rest ih =>
    intro m b k v hnd hmem
    obtain ⟨field, value⟩ := e
    rw [List.map_cons, List.nodup_cons] at hnd
    obtain ⟨hnotin, hndr⟩ := hnd
    rcases List.mem_cons.mp hmem with hhd | htl
    · -- the head entry is the one being characterised
      injection hhd with hk hv
      subst hk
      subst hv
      by_cases c1 : (decide (v ≠ JVal.jnull) && (m.user_profile.get k).isSome) = true
      · have c1' := c1
        simp only [Bool.and_eq_true, decide_eq_true_eq, Option.isSome_iff_exists] at c1'
        obtain ⟨hvnull, o, ho⟩ := c1'
        cases c2 : coerceField k v with
        | none =>
          rw [loop_step_nocoerce now k v rest m b c1 c2,
            loop_get_of_not_mem now rest m b k hnotin, ho]
          simp [mergeExpected, hvnull, c2]
        | some v' =>
          rw [loop_step_some now k v rest m b v' c1 c2]
          by_cases c3 : (decide (m.user_profile.get k = some JVal.jnull) ||
              decide (m.user_profile.get k ≠ some v')) = true
          · rw [if_pos c3]
            rw [loop_get_of_not_mem now rest _ true k hnotin, get_updateProfile]
            have hsf : (fieldOf k).isSome = true :=
              isSome_fieldOf_of_get m k (by simp [ho])
            simp only [ho, ne_eq, Option.some.injEq, Bool.or_eq_true,
              decide_eq_true_eq] at c3
            simp only [hsf, and_true, if_pos rfl]
            simp [mergeExpected, ho, hvnull, c2, c3]
          · rw [if_neg c3]
            rw [loop_get_of_not_mem now rest m b k hnotin, ho]
            simp only [ho, ne_eq, Option.some.injEq, Bool.or_eq_true, decide_eq_true_eq,
              not_or, not_not] at c3
            simp [mergeExpected, hvnull, c2, c3.1, c3.2]
      · rw [loop_step_guard_false now k v rest m b (by simpa using c1),
          loop_get_of_not_mem now rest m b k hnotin]
        simp only [Bool.and_eq_true, decide_eq_true_eq, not_and_or, not_not] at c1
        rcases c1 with hnull | hget
        · rw [hnull, mergeExpected_null]
        · have hnone : m.user_profile.get k = none := by
            cases hg : m.user_profile.get k
            · rfl
            · rw [hg] at hget; simp at hget
          rw [hnone]; rfl
    · -- the entry lives in the tail: the head step cannot touch key `k`
      have hk : k ∈ rest.map Prod.fst := List.mem_map.mpr ⟨(k, v), htl, rfl⟩
      have hkf : k ≠ field := fun h => hnotin (h ▸ hk)
      by_cases c1 : (decide (value ≠ JVal.jnull) && (m.user_profile.get field).isSome) = true
      · cases c2 : coerceField field value with
        | none =>
          rw [loop_step_nocoerce now field value rest m b c1 c2]
          exact ih m b k v hndr htl
        | some v' =>
          rw [loop_step_some now field value rest m b v' c1 c2]
          by_cases c3 : (decide (m.user_profile.get field = some JVal.jnull) ||
              decide (m.user_profile.get field ≠ some v')) = true
          · rw [if_pos c3]
            rw [ih _ true k v hndr htl, get_updateProfile]
            simp [hkf]
          · rw [if_neg c3]; exact ih m b k v hndr htl
      · rw [loop_step_guard_false now field value rest m b (by simpa using c1)]
        exact ih m b k v hndr htl

theorem loop_changed_of_flag (now : Str) :
    ∀ (updates : List (String × JVal)) (m : Memory),
    (updates.map Prod.fst).Nodup →
    (profileUpdatesLoop now updates m false).2 = true →
    (profileUpdatesLoop now updates m false).1.user_profile ≠ m.user_profile := by
  intro updates
  induction updates with
  | nil => intro m _ h; cases h
  | cons e rest ih =>
    intro m hnd h
    obtain ⟨field, value⟩ := e
    rw [List.map_cons, List.nodup_cons] at hnd
    obtain ⟨hnotin, hndr⟩ := hnd
    by_cases c1 : (decide (value ≠ JVal.jnull) && (m.user_profile.get field).isSome) = true
    · have c1' := c1
      simp only [Bool.and_eq_true, decide_eq_true_eq, Option.isSome_iff_exists] at c1'
      obtain ⟨hvnull, o, ho⟩ := c1'
      cases c2 : coerceField field value with
      | none =>
        rw [loop_step_nocoerce now field value rest m false c1 c2] at h ⊢
        exact ih m hndr h
      | some v' =>
        rw [loop_step_some now field value rest m false v' c1 c2] at h ⊢
        by_cases c3 : (decide (m.user_profile.get field = some JVal.jnull) ||
            decide (m.user_profile.get field ≠ some v')) = true
        · rw [if_pos c3] at h ⊢
          have hov : o ≠ v' := by
            have hvnn : v' ≠ .jnull := coerceField_ne_null c2 hvnull
            simp only [ho, ne_eq, Option.some.injEq, Bool.or_eq_true,
              decide_eq_true_eq] at c3
            rcases c3 with rfl | hne
            · exact fun hv => hvnn hv.symm
            · exact hne
          intro heq
          have hget : (profileUpdatesLoop now rest (updateProfile m field v' now).1
                true).1.user_profile.get field = m.user_profile.get field :=
            congrArg (fun p => p.get field) heq
          rw [loop_get_of_not_mem now rest _ true field hnotin, get_updateProfile] at hget
          have hsf : (fieldOf field).isSome = true :=
            isSome_fieldOf_of_get m field (by simp [ho])
          simp only [hsf, and_true, eq_self_iff_true, if_true, ho,
            Option.some.injEq] at hget
          exact hov hget.symm
        · rw [if_neg c3] at h ⊢; exact ih m hndr h
    · rw [loop_step_guard_false now field value rest m false (by simpa using c1)] at h ⊢
      exact ih m hndr h

/-! Helper lemmas for the pattern loop, the renderer and the defensive
response parsing. -/

theorem firstAcceptedMatch_eq_head (pats : List PhrasePat) (accept : Str → Bool)
    (s : Str) :
    firstAcceptedMatch pats accept s =
      (pats.filterMap (fun p => (reSearch p s).bind
        (fun mm => if accept (pyStrip mm) then some (pyStrip mm) else none))).head? := by
  induction pats with
  | nil => rfl
  | cons p ps ih =>
    unfold firstAcceptedMatch
    cases h : reSearch p s with
    | none => simp [h, ih]
    | some mm =>
      by_cases ha : accept (pyStrip mm) = true
      · simp [h, ha]
      · simp [h, ha, ih]

theorem intercStr_cons (sep p : Str) (rest : List Str) :
    ∃ t, intercStr sep (p :: rest) = p ++ t := by
  cases rest with
  | nil => exact ⟨[], by simp [intercStr]⟩
  | cons q qs => exact ⟨sep ++ intercStr sep (q :: qs), by simp [intercStr]⟩

theorem mem_ite_singleton {c : Prop} [Decidable c] {x p : Str}
    (h : p ∈ (if c then [x] else [])) : p = x := by
  split at h
  · simpa using h
  · cases h

theorem ite_singleton_eq_nil {c : Prop} [Decidable c] (x : Str) :
    ((if c then [x] else []) = []) ↔ ¬c := by
  split <;> simp_all

/-- Every rendered section starts with its fixed label, whose second
character is a lower-case letter — in particular not the `А` that is the
second character of the empty-store sentinel. -/
theorem contextParts_head_ne (m : Memory) (p : Str) (hp : p ∈ contextParts m) :
    ∃ c0 c1 t, p = c0 :: c1 :: t ∧ c1 ≠ 'А' := by
  unfold contextParts at hp
  simp only [List.mem_append] at hp
  rcases hp with
    ((((((((((h | h) | h) | h) | h) | h) | h) | h) | h) | h) | h) | h <;>
    rw [mem_ite_singleton h] <;> exact ⟨_, _, _, rfl, by decide⟩

theorem contextParts_nil_iff (m : Memory) :
    contextParts m = [] ↔ hasAnyInfo m = false := by
  unfold contextParts hasAnyInfo
  simp only [List.append_eq_nil, ite_singleton_eq_nil, Bool.or_eq_false_iff,
    Bool.not_eq_true, decide_eq_false_iff_not, not_not]

theorem firstIdx_eq_none_iff (c : Char) (s : Str) : firstIdx c s = none ↔ c ∉ s := by
  induction s with
  | nil => simp [firstIdx]
  | cons d t ih =>
    by_cases hd : d = c
    · subst hd; simp [firstIdx]
    · have hd' : ¬c = d := fun h => hd h.symm
      simp [firstIdx, hd, hd', ih]

theorem lastIdx_eq_none_iff (c : Char) (s : Str) : lastIdx c s = none ↔ c ∉ s := by
  unfold lastIdx
  simp [firstIdx_eq_none_iff]

/-! Claim theorems. -/

/-- C2 counterexample: exporting a store and importing the file into a
freshly emptied store does not reproduce the snapshot exactly — the
import's `_save_memory` re-stamps `updated_at` with the import time, so
the claimed field-for-field equality (which includes `updatedAt`) fails. -/
theorem export_import_roundtrip_cex :
    importMemory (emptyMemory "2025-01-01T00:00:00".data) (exportMemory roundTripMemory)
      "2025-01-02T00:00:00".data ≠ roundTripMemory := by decide

/-- C2 (amended): `export` followed by `import` into a freshly emptied
store reproduces every top-level key of the original snapshot —
`userProfile`, `facts`, `conversationsSummary`, `importantDates`,
`relationships`, `habits`, `createdAt` — exactly, except `updatedAt`,
which is set to the import time. -/
theorem export_import_roundtrip (m : Memory) (fresh now : Str) :
    importMemory (emptyMemory fresh) (exportMemory m) now =
      { m with updated_at := some now } := rfl

/-- C3 counterexample: on the message `"зови меня Ло"` the nickname
pattern list matches the two-character string `"ло"`, which is shorter
than 3 characters, yet it is accepted (the source's nickname filter only
requires length > 1) and the nickname field is updated from it. -/
theorem pattern_reject_length_cex :
    ((extractNameDirectly "зови меня Ло".data (emptyMemory "C".data) "T".data).map
        (fun r => (r.1.user_profile.nickname, r.2)) = .ok (.jstr "Ло".data, true))
    ∧ firstAcceptedMatch nicknamePatterns nickAcceptFn "зови меня ло".data =
        some "ло".data
    ∧ "ло".data.length < 3 :=
  ⟨by decide, by decide, by decide⟩

/-- C3 (amended): in the fast-path pattern strategy the first pattern in
each list that yields an accepted match wins (a rejected match does not
stop the scan); a name match is rejected when it is shorter than 3
characters or case-insensitively equal to a stop word, while a nickname
match is rejected only when shorter than 2 characters or equal to a stop
word. -/
theorem pattern_first_accepted_wins (s : Str) :
    firstAcceptedMatch namePatterns nameAcceptFn s =
      (namePatterns.filterMap (fun p => (reSearch p s).bind (fun mm =>
        if 2 < (pyStrip mm).length ∧
            stopWordsName.contains (lowerStr (pyStrip mm)) = false
        then some (pyStrip mm) else none))).head?
    ∧ firstAcceptedMatch nicknamePatterns nickAcceptFn s =
      (nicknamePatterns.filterMap (fun p => (reSearch p s).bind (fun mm =>
        if 1 < (pyStrip mm).length ∧
            stopWordsName.contains (lowerStr (pyStrip mm)) = false
        then some (pyStrip mm) else none))).head? := by
  constructor <;>
    · rw [firstAcceptedMatch_eq_head]
      congr 1
      congr 1
      funext p
      congr 1
      funext mm
      simp [nameAcceptFn, nickAcceptFn, Bool.and_eq_true, Bool.not_eq_true']

/-- C4: the profile merge skips null values and unknown keys, writes a
candidate (with age coercion) only when the stored value is `None` or
differs, leaves keys outside the update map untouched, and reports `true`
exactly when the profile changed; and the specification's two examples: on
a profile with `name = "Ann"`, applying `{name: "Ann", location: "Oslo"}`
changes only `location`, and applying `{name: null}` changes nothing. -/
theorem profile_merge_policy :
    (∀ (now : Str) (updates : List (String × JVal)) (m : Memory),
      (updates.map Prod.fst).Nodup →
      ((∀ k v, (k, v) ∈ updates →
          (profileUpdatesLoop now updates m false).1.user_profile.get k =
            mergeExpected (m.user_profile.get k) k v)
       ∧ (∀ k, k ∉ updates.map Prod.fst →
          (profileUpdatesLoop now updates m false).1.user_profile.get k =
            m.user_profile.get k)
       ∧ ((profileUpdatesLoop now updates m false).2 = true ↔
          (profileUpdatesLoop now updates m false).1.user_profile ≠
            m.user_profile)))
    ∧ profileUpdatesLoop "T".data
        [("name", .jstr "Ann".data), ("location", .jstr "Oslo".data)] annMemory false =
      ({ saveMemory annMemory "T".data with
         user_profile := { annMemory.user_profile with
                           location := .jstr "Oslo".data } }, true)
    ∧ profileUpdatesLoop "T".data [("name", JVal.jnull)] annMemory false =
        (annMemory, false) := by
  refine ⟨fun now updates m hnd =>
    ⟨fun k v hm => loop_get_of_mem now updates m false k v hnd hm,
     fun k hk => loop_get_of_not_mem now updates m false k hk,
     ⟨fun hf => loop_changed_of_flag now updates m hnd hf, fun hne => ?_⟩⟩,
    by decide, by decide⟩
  by_contra hff
  rw [Bool.not_eq_true] at hff
  obtain ⟨heq, -⟩ := loop_flag_false now updates m false hff
  exact hne (by rw [heq])

/-- Witness for C4: a concrete application of the general merge
characterisation. -/
theorem profile_merge_policy_witness :
    (([("age", JVal.jstr "33".data)].map Prod.fst).Nodup ∧
     (profileUpdatesLoop "T".data [("age", .jstr "33".data)] (emptyMemory "C".data)
        false).1.user_profile.get "age" =
       mergeExpected ((emptyMemory "C".data).user_profile.get "age") "age"
         (.jstr "33".data)) :=
  ⟨by decide,
   (profile_merge_policy.1 "T".data [("age", .jstr "33".data)] (emptyMemory "C".data)
      (by decide)).1 "age" (.jstr "33".data) (by decide)⟩

/-- C7: fact-extraction response parsing is defensive — without a
`[`…`]` slice the result is the empty list; every returned fact is a
non-empty string (non-string and empty elements are dropped rather than
raising); and the response `"garbage {not json"` yields the empty list. -/
theorem facts_parsing_defensive :
    (∀ r : Str, ¬('[' ∈ r ∧ ']' ∈ r) → parseFactsResponse r = [])
    ∧ (∀ (r f : Str), f ∈ parseFactsResponse r → f ≠ [])
    ∧ parseFactsResponse "garbage \x7bnot json".data = [] := by
  refine ⟨?_, ?_, by decide⟩
  · intro r hr
    rw [not_and_or] at hr
    unfold parseFactsResponse
    rcases hr with h | h
    · rw [(firstIdx_eq_none_iff '[' r).mpr h]
    · rw [(lastIdx_eq_none_iff ']' r).mpr h]
      cases firstIdx '[' r <;> rfl
  · intro r f hf
    unfold parseFactsResponse at hf
    split at hf
    · split at hf
      · split at hf
        · simp only [List.mem_filterMap] at hf
          obtain ⟨v, -, hv⟩ := hf
          split at hv
          · split at hv
            · injection hv with hv; subst hv; assumption
            · cases hv
          · cases hv
        · cases hf
      · cases hf
    · cases hf

/-- C8: a structured update delivering `age` as a string is integer
coerced — `{age: "25"}` always leaves the integer `25` stored; an
unparsable `{age: "twenty"}` drops only the `age` field while a sibling
`location` field in the same update is still applied. -/
theorem age_string_coercion :
    (∀ (now : Str) (m : Memory),
       (profileUpdatesLoop now [("age", .jstr "25".data)] m false).1.user_profile.age =
         .jint 25)
    ∧ (∀ (now : Str) (m : Memory),
       (profileUpdatesLoop now [("age", .jstr "twenty".data),
           ("location", .jstr "Осло".data)] m false).1.user_profile.age =
         m.user_profile.age
       ∧ (m.user_profile.location = .jnull →
          (profileUpdatesLoop now [("age", .jstr "twenty".data),
              ("location", .jstr "Осло".data)] m false).1.user_profile.location =
            .jstr "Осло".data)) := by
  constructor
  · intro now m
    have hguard : (decide ((JVal.jstr "25".data) ≠ JVal.jnull) &&
        (m.user_profile.get "age").isSome) = true := by
      have h2 : m.user_profile.get "age" = some m.user_profile.age := rfl
      simp [h2]
    rw [loop_step_some now "age" (.jstr "25".data) [] m false (.jint 25) hguard
      (by decide)]
    by_cases c3 : (decide (m.user_profile.get "age" = some JVal.jnull) ||
        decide (m.user_profile.get "age" ≠ some (JVal.jint 25))) = true
    · rw [if_pos c3]
      show ((updateProfile m "age" (.jint 25) now).1).user_profile.age = .jint 25
      rfl
    · rw [if_neg c3]
      show m.user_profile.age = .jint 25
      simp only [Bool.or_eq_true, decide_eq_true_eq, not_or, not_not, ne_eq] at c3
      have hg : m.user_profile.get "age" = some m.user_profile.age := rfl
      rw [hg] at c3
      injection c3.2 with h
  · intro now m
    have hg1 : (decide ((JVal.jstr "twenty".data) ≠ JVal.jnull) &&
        (m.user_profile.get "age").isSome) = true := by
      have h2 : m.user_profile.get "age" = some m.user_profile.age := rfl
      simp [h2]
    rw [loop_step_nocoerce now "age" (.jstr "twenty".data) _ m false hg1 (by decide)]
    have hg2 : (decide ((JVal.jstr "Осло".data) ≠ JVal.jnull) &&
        (m.user_profile.get "location").isSome) = true := by
      have h2 : m.user_profile.get "location" = some m.user_profile.location := rfl
      simp [h2]
    rw [loop_step_some now "location" (.jstr "Осло".data) [] m false
      (.jstr "Осло".data) hg2 (by decide)]
    constructor
    · by_cases c3 : (decide (m.user_profile.get "location" = some JVal.jnull) ||
          decide (m.user_profile.get "location" ≠ some (JVal.jstr "Осло".data))) = true
      · rw [if_pos c3]
        show ((updateProfile m "location" (.jstr "Осло".data) now).1).user_profile.age =
          m.user_profile.age
        rfl
      · rw [if_neg c3]; rfl
    · intro hloc
      have c3 : (decide (m.user_profile.get "location" = some JVal.jnull) ||
          decide (m.user_profile.get "location" ≠ some (JVal.jstr "Осло".data))) = true := by
        have h2 : m.user_profile.get "location" = some m.user_profile.location := rfl
        simp [h2, hloc]
      rw [if_pos c3]
      show ((updateProfile m "location" (.jstr "Осло".data) now).1).user_profile.location =
        .jstr "Осло".data
      rfl

/-- Witness for C8: the unparsable-age update on the empty store leaves
`age` untouched but sets the sibling `location`. -/
theorem age_string_coercion_witness :
    (emptyMemory "C".data).user_profile.location = .jnull ∧
    (profileUpdatesLoop "T".data [("age", .jstr "twenty".data),
        ("location", .jstr "Осло".data)] (emptyMemory "C".data)
      false).1.user_profile.location = .jstr "Осло".data :=
  ⟨by decide, (age_string_coercion.2 "T".data (emptyMemory "C".data)).2 (by decide)⟩

/-- Unfolding of one successful turn: with the fast-path result supplied,
`process_message` is the deterministic composition of fact extraction,
synthetic-fact injection, fact storage, profile update, history append,
generation, and logging. -/
theorem processMessage_ok (env : ChatEnv) (now sess : Str) (st : AgentState)
    (msg : Str) (m1 : Memory) (fired : Bool)
    (hex : extractNameDirectly msg st.memory now = .ok (m1, fired)) :
    processMessage env now sess st msg =
      (let facts0 := extractFactsFromConversation env.factTransport msg
         (getMemoryContext m1)
       let newFacts :=
         if fired && jtruthy m1.user_profile.name && !hasNameFact facts0 then
           facts0 ++ ["Пользователя зовут ".data ++ jvalStr m1.user_profile.name]
         else facts0
       let m2 := newFacts.foldl (fun m f => addFact m f "general".data now sess) m1
       let m3 :=
         if newFacts ≠ [] then
           (updateProfileFromFacts env.profileTransport newFacts m2 now).1
         else m2
       let response := chatWithModel env.mainTransport
       .ok ({ memory := m3,
              history := (st.history ++ [{ role := "user".data, content := msg }]) ++
                [{ role := "assistant".data, content := response }],
              log := st.log ++ [{ timestamp := now, user := msg,
                                  assistant := response,
                                  extracted_facts := newFacts }] }, response)) := by
  unfold processMessage
  rw [hex]
  rfl

/-- C5: the context renderer returns the fixed "nothing known yet"
sentinel exactly when nothing is present in the store — where "present"
is the source's truthiness test (a non-null, non-empty, non-zero scalar
field, or a non-empty interests/goals/preferences collection,
relationship map, date map, habit list, or fact log). -/
theorem render_sentinel_iff (m : Memory) :
    getMemoryContext m = emptyMemorySentinel ↔
      (jtruthy m.user_profile.name = false ∧ jtruthy m.user_profile.nickname = false ∧
       jtruthy m.user_profile.age = false ∧ jtruthy m.user_profile.location = false ∧
       jtruthy m.user_profile.occupation = false ∧
       jtruthy m.user_profile.interests = false ∧
       jtruthy m.user_profile.goals = false ∧
       jtruthy m.user_profile.preferences = false ∧
       m.relationships = [] ∧ m.important_dates = [] ∧ m.habits = [] ∧
       m.facts = []) := by
  have hinfo : hasAnyInfo m = false ↔
      (jtruthy m.user_profile.name = false ∧ jtruthy m.user_profile.nickname = false ∧
       jtruthy m.user_profile.age = false ∧ jtruthy m.user_profile.location = false ∧
       jtruthy m.user_profile.occupation = false ∧
       jtruthy m.user_profile.interests = false ∧
       jtruthy m.user_profile.goals = false ∧
       jtruthy m.user_profile.preferences = false ∧
       m.relationships = [] ∧ m.important_dates = [] ∧ m.habits = [] ∧
       m.facts = []) := by
    unfold hasAnyInfo
    simp [Bool.or_eq_false_iff, decide_eq_false_iff_not, and_assoc]
  have hkey : hasAnyInfo m = true → getMemoryContext m ≠ emptyMemorySentinel := by
    intro ht heq
    have hne : contextParts m ≠ [] := by
      intro hnil
      rw [contextParts_nil_iff, ht] at hnil
      cases hnil
    obtain ⟨p, rest, hpr⟩ : ∃ p rest, contextParts m = p :: rest := by
      cases hcp : contextParts m with
      | nil => exact absurd hcp hne
      | cons p rest => exact ⟨p, rest, rfl⟩
    have hmem : p ∈ contextParts m := by rw [hpr]; exact List.mem_cons_self p rest
    obtain ⟨c0, c1, t, hp, hc1⟩ := contextParts_head_ne m p hmem
    obtain ⟨tail2, hint⟩ := intercStr_cons "\n\n".data p rest
    have hgm : getMemoryContext m = p ++ tail2 := by
      unfold getMemoryContext
      rw [if_pos ht, hpr, hint]
    rw [hgm, hp] at heq
    have hchars : c0 :: c1 :: (t ++ tail2) = emptyMemorySentinel := by simpa using heq
    have hsent : emptyMemorySentinel = 'П' :: 'А' ::
        "МЯТЬ ПУСТАЯ: Я ещё ничего не знаю о пользователе. Это первый разговор.".data :=
      rfl
    rw [hsent] at hchars
    injection hchars with h0 hchars
    injection hchars with h1 hchars
    exact hc1 h1
  constructor
  · intro h
    cases hb : hasAnyInfo m with
    | false => exact hinfo.mp hb
    | true => exact absurd h (hkey hb)
  · intro h
    have hb : hasAnyInfo m = false := hinfo.mpr h
    unfold getMemoryContext
    rw [hb]
    simp

/-- C9: the short-utterance heuristic fires — setting the name to the
first token and skipping the pattern phase — exactly when the stripped
message has at most two tokens, its first token starts with an upper-case
letter, is all-alphabetic, has length at least 2 and is not a stop word,
and the profile's `name` and `nickname` are both falsy; when the
token-or-profile conditions fail, only the pattern phase runs; on a
profile already named `"Петя"`, the utterance `"Вася"` changes nothing. -/
theorem short_utterance_heuristic :
    (∀ (m : Memory) (msg now w : Str) (rest : List Str),
      pySplit (pyStrip msg) = w :: rest → rest.length ≤ 1 →
      jtruthy m.user_profile.name = false →
      jtruthy m.user_profile.nickname = false →
      shortTokenOk w = true →
      extractNameDirectly msg m now =
        .ok ((updateProfile m "name" (.jstr w) now).1, true))
    ∧ (∀ (m : Memory) (msg now : Str),
        shortGuard (pySplit (pyStrip msg)) m.user_profile = false →
        extractNameDirectly msg m now =
          .ok (patternPhase (pyStrip (lowerStr msg)) m now))
    ∧ (∀ (m : Memory) (msg now w : Str) (rest : List Str),
        pySplit (pyStrip msg) = w :: rest →
        shortGuard (w :: rest) m.user_profile = true →
        shortTokenOk w = false →
        extractNameDirectly msg m now =
          .ok (patternPhase (pyStrip (lowerStr msg)) m now))
    ∧ extractNameDirectly "Вася".data petyaMemory "T".data = .ok (petyaMemory, false) := by
  refine ⟨?_, ?_, ?_, by decide⟩
  · intro m msg now w rest hsplit hlen hn hnick htok
    simp only [extractNameDirectly]
    rw [hsplit]
    have hg : shortGuard (w :: rest) m.user_profile = true := by
      simp [shortGuard, hn, hnick]
      omega
    rw [if_pos hg]
    show (if shortTokenOk w = true then
        Except.ok ((updateProfile m "name" (.jstr w) now).1, true)
      else Except.ok (patternPhase (pyStrip (lowerStr msg)) m now)) = _
    rw [if_pos htok]
  · intro m msg now hsg
    simp only [extractNameDirectly]
    rw [if_neg (by rw [hsg]; exact Bool.false_ne_true)]
  · intro m msg now w rest hsplit hg htok
    simp only [extractNameDirectly]
    rw [hsplit, if_pos hg]
    show (if shortTokenOk w = true then
        Except.ok ((updateProfile m "name" (.jstr w) now).1, true)
      else Except.ok (patternPhase (pyStrip (lowerStr msg)) m now)) = _
    rw [if_neg (by rw [htok]; exact Bool.false_ne_true)]

/-- Witness for C9: `"Вася"` on an empty profile sets the name. -/
theorem short_utterance_heuristic_witness :
    pySplit (pyStrip "Вася".data) = ["Вася".data] ∧
    extractNameDirectly "Вася".data (emptyMemory "C".data) "T".data =
      .ok ((updateProfile (emptyMemory "C".data) "name"
        (.jstr "Вася".data) "T".data).1, true) :=
  ⟨by decide,
   short_utterance_heuristic.1 (emptyMemory "C".data) "Вася".data "T".data
     "Вася".data [] (by decide) (by decide) (by decide) (by decide) (by decide)⟩

/-- C10: the generative fact extractor short-circuits before any model
call — for every utterance of at most two tokens whose first token starts
with an upper-case letter, is all-alphabetic, has length at least 2 and is
not in its (smaller) stop-word list, it returns exactly the single fact
`"Пользователя зовут <token>"`, for every transport outcome and every
memory context, and regardless of any profile state (the function does not
consult the profile at all). -/
theorem facts_extraction_short_circuit (factTransport : Option Str) (ctx msg w : Str)
    (rest : List Str)
    (hsplit : pySplit (pyStrip msg) = w :: rest) (hlen : rest.length ≤ 1)
    (hup : match w with | c :: _ => isUpperPy c = true | [] => False)
    (halpha : w.all isAlphaPy = true) (hlen2 : 2 ≤ w.length)
    (hstop : stopWordsFacts.contains (lowerStr w) = false) :
    extractFactsFromConversation factTransport msg ctx =
      ["Пользователя зовут ".data ++ w] := by
  obtain ⟨c, w2, rfl⟩ : ∃ c w2, w = c :: w2 := by
    cases w with
    | nil => cases hup
    | cons c w2 => exact ⟨c, w2, rfl⟩
  simp only [extractFactsFromConversation]
  rw [hsplit]
  have h2 : ((c :: w2) :: rest).length ≤ 2 := by simp; omega
  rw [if_pos h2]
  simp only [List.headD]
  have hcond : (decide ((c :: w2 : Str) ≠ []) &&
      (match (c :: w2 : Str) with | c :: _ => isUpperPy c | [] => false) &&
      (c :: w2).all isAlphaPy && decide (2 ≤ (c :: w2 : Str).length)) = true := by
    simp only [List.length_cons] at hlen2
    simp [hup, halpha]
    omega
  rw [if_pos hcond, if_pos (by rw [hstop]; rfl)]

/-- Witness for C10: the utterance `"Вася"` short-circuits even when the
transport would fail. -/
theorem facts_extraction_short_circuit_witness :
    pySplit (pyStrip "Вася".data) = ["Вася".data] ∧
    extractFactsFromConversation none "Вася".data [] =
      ["Пользователя зовут ".data ++ "Вася".data] :=
  ⟨by decide,
   facts_extraction_short_circuit none [] "Вася".data "Вася".data []
     (by decide) (by decide) (by decide) (by decide) (by decide) (by decide)⟩

/-- C1 counterexample: with the main chat transport failing, the source
does not abort the turn — `chat_with_model` swallows the
`RequestException` and returns the empty string, and `process_message`
appends that empty assistant response to the in-memory history, writes it
to the exchange log, and returns it. -/
theorem transport_error_records_empty_cex :
    envErr.mainTransport = none ∧
    processMessage envErr "T".data "S".data
      { memory := emptyMemory "C".data, history := [], log := [] }
      "как у тебя дела".data =
    .ok ({ memory := emptyMemory "C".data,
           history := [{ role := "user".data, content := "как у тебя дела".data },
                       { role := "assistant".data, content := [] }],
           log := [{ timestamp := "T".data, user := "как у тебя дела".data,
                     assistant := [], extracted_facts := [] }] }, []) :=
  ⟨rfl, by decide⟩

/-- C1 (amended): when the main chat request raises a transport error, the
turn is not aborted: the returned response is the empty string, the
history gains the user message followed by an empty assistant message, and
an exchange record with an empty assistant response is written to the
log. -/
theorem transport_error_turn (env : ChatEnv) (now sess : Str) (st : AgentState)
    (msg : Str) (m1 : Memory) (fired : Bool)
    (herr : env.mainTransport = none)
    (hex : extractNameDirectly msg st.memory now = .ok (m1, fired)) :
    (processMessage env now sess st msg).map (fun r => (r.2, r.1.history)) =
      .ok (([] : Str), st.history ++
        [{ role := "user".data, content := msg },
         { role := "assistant".data, content := [] }])
    ∧ ∃ fs, (processMessage env now sess st msg).map (fun r => r.1.log) =
        .ok (st.log ++ [{ timestamp := now, user := msg, assistant := [],
                          extracted_facts := fs }]) := by
  rw [processMessage_ok env now sess st msg m1 fired hex]
  constructor
  · simp [herr, chatWithModel, Except.map]
  · refine ⟨(if fired && jtruthy m1.user_profile.name &&
        !hasNameFact (extractFactsFromConversation env.factTransport msg
          (getMemoryContext m1)) then
        extractFactsFromConversation env.factTransport msg (getMemoryContext m1) ++
          ["Пользователя зовут ".data ++ jvalStr m1.user_profile.name]
      else extractFactsFromConversation env.factTransport msg
        (getMemoryContext m1)), ?_⟩
    simp [herr, chatWithModel, Except.map]

/-- Witness for C1's amended theorem: a concrete turn under a failed
transport. -/
theorem transport_error_turn_witness :
    envErr.mainTransport = none ∧
    extractNameDirectly "как у тебя дела".data
      (emptyMemory "C".data) "T".data = .ok (emptyMemory "C".data, false) ∧
    (processMessage envErr "T".data "S".data
        { memory := emptyMemory "C".data, history := [], log := [] }
        "как у тебя дела".data).map (fun r => (r.2, r.1.history)) =
      .ok (([] : Str),
        ([] : List ChatMsg) ++
          [{ role := "user".data, content := "как у тебя дела".data },
           { role := "assistant".data, content := [] }]) :=
  ⟨rfl, by decide,
   (transport_error_turn envErr "T".data "S".data
      { memory := emptyMemory "C".data, history := [], log := [] }
      "как у тебя дела".data (emptyMemory "C".data) false rfl (by decide)).1⟩

/-- C6 counterexample: on a profile already named `"Петя"`, the utterance
`"зови меня Ололоша"` changes only the nickname — the fast path did not
change the name field — yet `process_message` still synthesizes and logs
the fact `"Пользователя зовут Петя"` (the source's guard tests the
fast-path flag, which is also set by a nickname change, not a name
change). -/
theorem synthetic_name_fact_cex :
    ((extractNameDirectly "зови меня Ололоша".data petyaMemory "T".data).map
        (fun r => (r.1.user_profile.name, r.2)) = .ok (.jstr "Петя".data, true))
    ∧ petyaMemory.user_profile.name = .jstr "Петя".data
    ∧ (processMessage envErr "T".data "S".data
        { memory := petyaMemory, history := [], log := [] }
        "зови меня Ололоша".data).map
        (fun r => r.1.log.map LogEntry.extracted_facts) =
      .ok [["Пользователя зовут Петя".data]] :=
  ⟨by decide, by decide, by decide⟩

/-- C6 (amended): the turn's logged fact list is the extracted facts plus
the synthetic fact `"Пользователя зовут <name>"` exactly when the
fast-path extractor reported a change (of the name *or* the nickname
field), the profile's name is truthy at that point, and no extracted fact
already mentions `зовут`/`имя`. -/
theorem synthetic_name_fact_rule (env : ChatEnv) (now sess : Str) (st : AgentState)
    (msg : Str) (m1 : Memory) (fired : Bool)
    (hex : extractNameDirectly msg st.memory now = .ok (m1, fired)) :
    (processMessage env now sess st msg).map (fun r => r.1.log) =
      .ok (st.log ++
        [{ timestamp := now, user := msg,
           assistant := chatWithModel env.mainTransport,
           extracted_facts :=
             (if fired && jtruthy m1.user_profile.name &&
                 !hasNameFact (extractFactsFromConversation env.factTransport msg
                   (getMemoryContext m1)) then
                extractFactsFromConversation env.factTransport msg
                  (getMemoryContext m1) ++
                  ["Пользователя зовут ".data ++ jvalStr m1.user_profile.name]
              else
                extractFactsFromConversation env.factTransport msg
                  (getMemoryContext m1)) }]) := by
  rw [processMessage_ok env now sess st msg m1 fired hex]
  rfl

/-- Witness for C6's amended theorem: the `"Петя"` scenario instantiated
through the general rule. -/
theorem synthetic_name_fact_rule_witness :
    extractNameDirectly "зови меня Ололоша".data petyaMemory "T".data =
      .ok ((updateProfile petyaMemory "nickname"
        (.jstr "Ололоша".data) "T".data).1, true) ∧
    (processMessage envErr "T".data "S".data
        { memory := petyaMemory, history := [], log := [] }
        "зови меня Ололоша".data).map (fun r => r.1.log) =
      .ok (([] : List LogEntry) ++
        [{ timestamp := "T".data, user := "зови меня Ололоша".data,
           assistant := chatWithModel envErr.mainTransport,
           extracted_facts :=
             (if true && jtruthy ((updateProfile petyaMemory "nickname"
                   (.jstr "Ололоша".data) "T".data).1).user_profile.name &&
                 !hasNameFact (extractFactsFromConversation envErr.factTransport
                   "зови меня Ололоша".data
                   (getMemoryContext ((updateProfile petyaMemory "nickname"
                     (.jstr "Ололоша".data) "T".data).1))) then
                extractFactsFromConversation envErr.factTransport
                  "зови меня Ололоша".data
                  (getMemoryContext ((updateProfile petyaMemory "nickname"
                    (.jstr "Ололоша".data) "T".data).1)) ++
                  ["Пользователя зовут ".data ++
                    jvalStr ((updateProfile petyaMemory "nickname"
                      (.jstr "Ололоша".data) "T".data).1).user_profile.name]
              else
                extractFactsFromConversation envErr.factTransport
                  "зови меня Ололоша".data
                  (getMemoryContext ((updateProfile petyaMemory "nickname"
                    (.jstr "Ололоша".data) "T".data).1))) }]) :=
  ⟨by decide,
   synthetic_name_fact_rule envErr "T".data "S".data
     { memory := petyaMemory, history := [], log := [] }
     "зови меня Ололоша".data
     ((updateProfile petyaMemory "nickname" (.jstr "Ололоша".data) "T".data).1) true
     (by decide)⟩

/-- Witness for C7: a bracket-free response parses to the empty fact
list. -/
theorem facts_parsing_defensive_witness :
    ¬('[' ∈ "abc".data ∧ ']' ∈ "abc".data) ∧ parseFactsResponse "abc".data = [] :=
  ⟨by decide, facts_parsing_defensive.1 "abc".data (by decide)⟩
